import Mathlib

/-!
# Verification of the invoicer storage / calculation core

Shallow embedding of the storage engine (`js/storage.js`) and the
calculation engine of the local-storage invoicer application, together
with theorems settling the specification claims about them.

Modelling conventions:
* JavaScript string-valued fields that may be missing from an object are
  `Option String`; `none` models a property that is absent (`undefined`).
  JavaScript truthiness of such a field (`!x` checks) is `jsTruthyStr`:
  a field is truthy when it is present and not the empty string.
* Numeric fields are `Option ℚ` (the code only ever adds, multiplies and
  divides by 100; every concrete value appearing in the claims is exactly
  representable, so exact rational arithmetic is a faithful model).
* The `items` property can be absent, present-but-not-an-array, or an
  array; `ItemsField` has one constructor for each case (the
  `nonArray` constructor stands for a truthy non-array value, which is
  what `Array.isArray` guards against in the source).
* `localStorage` for the single key `invoicer_data` is a `Store`: the
  stored blob (absent / present-but-unparseable / a parsed document),
  the behaviour the platform exhibits on `setItem` (success, a
  quota-style `DOMException`, or any other failure), and
  `localStorage.length` (the number of stored keys, which the quota
  detection heuristic consults).
* Each storage operation is explicit state passing: it returns its result
  together with the store left behind, and exceptions are `Except`.
-/

/-- Truthiness of a possibly-absent JavaScript string field:
`undefined` and `""` are falsy, every other string is truthy. -/
def jsTruthyStr : Option String → Bool
  | none => false
  | some s => decide (s ≠ "")

/-- Model of JavaScript `String.prototype.toLowerCase` (character-wise
lowering, which is all the ASCII data of this application exercises). -/
def jsToLower (s : String) : String :=
  ⟨s.data.map Char.toLower⟩

/-- Model of JavaScript `haystack.includes(needle)`: `needle` occurs as a
contiguous substring of `haystack`. -/
def jsIncludes (haystack needle : String) : Bool :=
  decide (needle.data <:+: haystack.data)

/-- The `client` sub-object of an invoice (`{name, email, address}`). -/
structure Client where
  name : Option String
  email : Option String
  address : Option String
deriving DecidableEq

/-- One line item (`{id, description, quantity, rate, amount}`). -/
structure LineItem where
  id : Option String
  description : Option String
  quantity : Option ℚ
  rate : Option ℚ
  amount : Option ℚ
deriving DecidableEq

/-- The `items` property of an invoice: absent (or otherwise falsy),
present but not an array (a truthy non-array value), or an array. -/
inductive ItemsField where
  | absent : ItemsField
  | nonArray : ItemsField
  | arr : List LineItem → ItemsField
deriving DecidableEq

/-- An invoice record, with every top-level property the source reads or
writes; `none` / `ItemsField.absent` model an absent property. -/
structure Invoice where
  id : Option String
  createdDate : Option String
  dueDate : Option String
  status : Option String
  client : Option Client
  items : ItemsField
  subtotal : Option ℚ
  taxRate : Option ℚ
  taxAmount : Option ℚ
  total : Option ℚ
  notes : Option String
  updatedAt : Option String
deriving DecidableEq

instance : Inhabited Invoice :=
  ⟨⟨none, none, none, none, none, ItemsField.absent,
    none, none, none, none, none, none⟩⟩

/-- The settings record (`{name, address, logo, currency, defaultTaxRate}`). -/
structure Settings where
  name : Option String
  address : Option String
  logo : Option String
  currency : Option String
  defaultTaxRate : Option ℚ
deriving DecidableEq

/-- The single persisted aggregate:
`{version, invoices, settings}` under the key `invoicer_data`. -/
structure AppDocument where
  version : Option String
  invoices : List Invoice
  settings : Settings
deriving DecidableEq

/-- `const APP_VERSION = '1.0.0'`. -/
def APP_VERSION : String := "1.0.0"

/-- The stored blob under the `invoicer_data` key: absent, present but
failing `JSON.parse`, or a parsed document. -/
inductive StoredBlob where
  | absent : StoredBlob
  | corrupt : StoredBlob
  | doc : AppDocument → StoredBlob
deriving DecidableEq

/-- How the platform behaves when `localStorage.setItem` is called on the
data key: the write succeeds, throws a quota-style `DOMException`
(one with the codes/names `_isQuotaExceeded` recognises), or throws any
other error. -/
inductive WriteMode where
  | ok : WriteMode
  | quotaFull : WriteMode
  | otherError : WriteMode
deriving DecidableEq

/-- The state of `localStorage` as the storage engine sees it: the blob
under `invoicer_data`, the platform's write behaviour, and
`localStorage.length` (total number of stored keys across the origin,
consulted by the quota-detection heuristic). -/
structure Store where
  blob : StoredBlob
  mode : WriteMode
  storageLen : Nat
deriving DecidableEq

/-- `class StorageError extends Error { constructor(message, code) ... }`. -/
structure StorageError where
  message : String
  code : String
deriving DecidableEq

/-- `Storage._getDefaults()`: the default document
`{version: APP_VERSION, invoices: [], settings: {currency: 'USD', defaultTaxRate: 0}}`. -/
def _getDefaults : AppDocument :=
  { version := some APP_VERSION
    invoices := []
    settings :=
      { name := none
        address := none
        logo := none
        currency := some "USD"
        defaultTaxRate := some 0 } }

/-- `Storage.getData()`: reads the blob; returns the parsed document when
present and parseable, and the defaults when the key is absent or
`JSON.parse` throws (the catch branch). It calls no write; the store
component of the result is the translation of that fact. -/
def getData (s : Store) : AppDocument × Store :=
  match s.blob with
  | StoredBlob.absent => (_getDefaults, s)
  | StoredBlob.corrupt => (_getDefaults, s)
  | StoredBlob.doc d => (d, s)

/-- `Storage.saveData(data)`: `JSON.stringify` + `localStorage.setItem`,
translating the catch branch: a quota-style exception is reported as
`QUOTA_EXCEEDED` only when `localStorage.length !== 0` (the
`_isQuotaExceeded` heuristic), every other failure as `WRITE_ERROR`.
A successful write on a previously absent key adds one key. -/
def saveData (d : AppDocument) (s : Store) : Except StorageError Store :=
  match s.mode with
  | WriteMode.ok =>
      Except.ok
        { s with
          blob := StoredBlob.doc d
          storageLen :=
            match s.blob with
            | StoredBlob.absent => s.storageLen + 1
            | _ => s.storageLen }
  | WriteMode.quotaFull =>
      if s.storageLen ≠ 0 then
        Except.error
          { message := "Storage full. Please delete some invoices."
            code := "QUOTA_EXCEEDED" }
      else
        Except.error { message := "Failed to save data.", code := "WRITE_ERROR" }
  | WriteMode.otherError =>
      Except.error { message := "Failed to save data.", code := "WRITE_ERROR" }

/-- `Storage.getInvoices()`: `getData().invoices` (`|| []` is subsumed by
the typed document always carrying a list). -/
def getInvoices (s : Store) : List Invoice × Store :=
  let p := getData s
  (p.1.invoices, p.2)

/-- `Storage.getInvoice(id)`: linear scan, `invoices.find(inv => inv.id === id)`,
`null` (here `none`) when nothing matches. The argument is an
`Option String` because `===` compares `undefined` ids as well. -/
def getInvoice (id : Option String) (s : Store) : Option Invoice × Store :=
  let p := getInvoices s
  (p.1.find? (fun inv => decide (inv.id = id)), p.2)

/-- Truthiness of the `items` property: absent is falsy; a non-array
truthy value and every array (even the empty one) are truthy. -/
def ItemsField.jsTruthy : ItemsField → Bool
  | ItemsField.absent => false
  | ItemsField.nonArray => true
  | ItemsField.arr _ => true

/-- `Storage._validateInvoice(invoice)`: the argument must be an object
(`none` models `null`/`undefined`/non-objects), `client` and `items`
must be present (truthy), `client.name` must be truthy, and `items`
must be a non-empty array. -/
def _validateInvoice (invoice : Option Invoice) : Bool :=
  match invoice with
  | none => false
  | some inv =>
      match inv.client with
      | none => false
      | some c =>
          ItemsField.jsTruthy inv.items &&
          jsTruthyStr c.name &&
          (match inv.items with
           | ItemsField.arr l => decide (l ≠ [])
           | _ => false)

/-- The predicate `inv => inv.id === invoice.id` used by
`saveInvoice`'s `findIndex`. -/
def sameIdAs (invoice : Invoice) : Invoice → Bool :=
  fun o => decide (o.id = invoice.id)

/-- The object spread `{ ...existing, ...invoice }` at the top level of
an invoice: a property of `invoice` overrides when present, and the
existing property is kept when the incoming one is absent. -/
def spreadMerge (existing incoming : Invoice) : Invoice :=
  { id := incoming.id.or existing.id
    createdDate := incoming.createdDate.or existing.createdDate
    dueDate := incoming.dueDate.or existing.dueDate
    status := incoming.status.or existing.status
    client := incoming.client.or existing.client
    items :=
      match incoming.items with
      | ItemsField.absent => existing.items
      | x => x
    subtotal := incoming.subtotal.or existing.subtotal
    taxRate := incoming.taxRate.or existing.taxRate
    taxAmount := incoming.taxAmount.or existing.taxAmount
    total := incoming.total.or existing.total
    notes := incoming.notes.or existing.notes
    updatedAt := incoming.updatedAt.or existing.updatedAt }

/-- `Storage.saveInvoice(invoice)`. Validation failure returns `false`
without touching the store. Otherwise: load, `findIndex` by id; if
found, replace that entry with `{ ...existing, ...invoice, updatedAt: now }`;
if not, assign `crypto.randomUUID()` (the `freshId` argument) when the
id is falsy, stamp `createdDate` when falsy, and push. Then `saveData`.
The `catch` re-throws `StorageError`s (the only exceptions that arise
here) and would return `false` otherwise. The JavaScript function
mutates the caller's object in place in the create branch; the middle
component of the result is the caller's object as it stands after the
call, and in the create branch it is the very object pushed. -/
def saveInvoice (invoice : Option Invoice) (freshId now : String) (s : Store) :
    Except StorageError (Bool × Option Invoice × Store) :=
  if _validateInvoice invoice = false then
    Except.ok (false, invoice, s)
  else
    match invoice with
    | none => Except.ok (false, none, s)
    | some inv =>
        let p := getData s
        let data := p.1
        match data.invoices.findIdx? (sameIdAs inv) with
        | some i =>
            let merged :=
              { spreadMerge (data.invoices.getD i default) inv with
                updatedAt := some now }
            match saveData { data with invoices := data.invoices.set i merged } p.2 with
            | Except.ok s2 => Except.ok (true, some inv, s2)
            | Except.error e => Except.error e
        | none =>
            let inv1 :=
              if jsTruthyStr inv.id then inv else { inv with id := some freshId }
            let inv2 :=
              if jsTruthyStr inv1.createdDate then inv1
              else { inv1 with createdDate := some now }
            match saveData { data with invoices := data.invoices ++ [inv2] } p.2 with
            | Except.ok s2 => Except.ok (true, some inv2, s2)
            | Except.error e => Except.error e

/-- `Storage.deleteInvoice(id)`: filter out entries with the given id,
persist only when the length changed; `true` exactly when a changed
document was persisted. The surrounding `catch` swallows every
exception — including `StorageError` — and returns `false`. -/
def deleteInvoice (id : String) (s : Store) : Bool × Store :=
  let p := getData s
  let data := p.1
  let remaining := data.invoices.filter (fun inv => decide (inv.id ≠ some id))
  if remaining.length ≠ data.invoices.length then
    match saveData { data with invoices := remaining } p.2 with
    | Except.ok s2 => (true, s2)
    | Except.error _ => (false, p.2)
  else (false, p.2)

/-- The filter predicate of `Storage.searchInvoices`: the basic fields
(id, client name, client email, status — each guarded by its own
truthiness, exactly as the `&&` chains in the source) matched first,
then, when `items` is an array, any line item's description. -/
def invMatches (term : String) (inv : Invoice) : Bool :=
  let basicMatch :=
    (jsTruthyStr inv.id && jsIncludes (jsToLower (inv.id.getD "")) term) ||
    (match inv.client with
     | none => false
     | some c =>
         (jsTruthyStr c.name && jsIncludes (jsToLower (c.name.getD "")) term) ||
         (jsTruthyStr c.email && jsIncludes (jsToLower (c.email.getD "")) term)) ||
    (jsTruthyStr inv.status && jsIncludes (jsToLower (inv.status.getD "")) term)
  if basicMatch then true
  else
    match inv.items with
    | ItemsField.arr l =>
        l.any (fun item =>
          jsTruthyStr item.description &&
          jsIncludes (jsToLower (item.description.getD "")) term)
    | _ => false

/-- `Storage.searchInvoices(query)`: a falsy query returns all invoices;
otherwise lowercase the query and filter by `invMatches`. -/
def searchInvoices (query : Option String) (s : Store) : List Invoice × Store :=
  if jsTruthyStr query = false then getInvoices s
  else
    let term := jsToLower (query.getD "")
    let p := getInvoices s
    (p.1.filter (invMatches term), p.2)

/-- Modelled from the spec: `Storage.saveSettings(settings)` is not among
the files under `src/` (only its caller `App.handleSaveSettings` is).
Per the spec it is the "same get/save pattern restricted to the
`settings` field of the document" and "may raise the same storage
errors": load the document, replace its settings, persist through
`saveData`, return `true` on success, and propagate storage errors. -/
def saveSettings (st : Settings) (s : Store) : Except StorageError (Bool × Store) :=
  let p := getData s
  match saveData { p.1 with settings := st } p.2 with
  | Except.ok s2 => Except.ok (true, s2)
  | Except.error e => Except.error e

/-- Modelled from the spec: the Calculation Engine (`js/model.js`,
`Model.calculateInvoice`) is not among the files under `src/`. Per the
spec: "for every item, `amount := quantity × rate`;
`subtotal := Σ amount`; `taxAmount := subtotal × taxRate / 100`;
`total := subtotal + taxAmount`; returns a new/updated invoice with
these fields set — pure function, no side effects, deterministic,
never fails (defaults missing numeric inputs to 0)." An invoice whose
`items` is not an array contributes no line items, so its totals are 0. -/
def calculateInvoice (inv : Invoice) : Invoice :=
  match inv.items with
  | ItemsField.arr l =>
      let items2 := l.map (fun it =>
        { it with amount := some (it.quantity.getD 0 * it.rate.getD 0) })
      let sub : ℚ := (items2.map (fun it => it.amount.getD 0)).sum
      let tax : ℚ := sub * inv.taxRate.getD 0 / 100
      { inv with
        items := ItemsField.arr items2
        subtotal := some sub
        taxAmount := some tax
        total := some (sub + tax) }
  | _ =>
      { inv with subtotal := some 0, taxAmount := some 0, total := some 0 }

/-! ## Shared helper lemmas -/

/-- `getData` leaves the store exactly as it found it: the translation
contains no `setItem`. -/
theorem getData_state (s : Store) : (getData s).2 = s := by
  rcases s with ⟨blob, mode, len⟩
  cases blob <;> rfl

/-- A non-empty string has non-empty character data. -/
theorem data_ne_nil_of_ne_empty {s : String} (h : s ≠ "") : s.data ≠ [] := by
  intro hd
  exact h (String.ext hd)

/-- `jsToLower` sends non-empty strings to non-empty strings. -/
theorem jsToLower_ne_empty {s : String} (h : s ≠ "") : jsToLower s ≠ "" := by
  intro hc
  have hd : (jsToLower s).data = s.data.map Char.toLower := rfl
  have : s.data.map Char.toLower = [] := by
    have := congrArg String.data hc
    simpa [hd] using this
  exact data_ne_nil_of_ne_empty h (List.map_eq_nil_iff.mp this)

/-- Nothing is a substring of the empty string except the empty one. -/
theorem jsIncludes_empty_haystack {t : String} (h : t ≠ "") :
    jsIncludes "" t = false := by
  simp only [jsIncludes, decide_eq_false_iff_not]
  intro hinf
  have : t.data = [] := List.infix_nil.mp hinf
  exact data_ne_nil_of_ne_empty h this

/-- Facts extracted from a successful `findIdx?`: the index is in range,
the element there satisfies the predicate, and nothing before it does. -/
theorem findIdx?_some_facts {α : Type} {p : α → Bool} {l : List α} {i : ℕ}
    (h : l.findIdx? p = some i) :
    ∃ hi : i < l.length, p (l.get ⟨i, hi⟩) = true ∧
      ∀ j (hj : j < i), p (l.get ⟨j, Nat.lt_trans hj hi⟩) = false := by
  have hex : ∃ x ∈ l, p x = true := by
    by_contra hall
    push_neg at hall
    have : l.findIdx? p = none := by
      rw [List.findIdx?_eq_none_iff]
      intro x hx
      have := hall x hx
      simpa using this
    rw [this] at h
    exact Option.noConfusion h
  have hfi : l.findIdx p = i := by
    have := List.findIdx_eq_findIdx? p l
    rw [h] at this
    exact this
  have hlt : i < l.length := hfi ▸ List.findIdx_lt_length_of_exists hex
  refine ⟨hlt, ?_, ?_⟩
  · have := @List.findIdx_getElem _ p l (hfi ▸ hlt)
    simpa [hfi, List.get_eq_getElem] using this
  · intro j hj
    have := @List.not_of_lt_findIdx _ p l j (by omega : j < List.findIdx p l)
    simpa [List.get_eq_getElem] using this

/-- `find?` on a list whose `i`-th entry has been replaced by a hit,
when everything before `i` misses, returns the replacement. -/
theorem find?_set_hit {α : Type} {p : α → Bool} :
    ∀ (l : List α) (i : ℕ) (a : α) (hi : i < l.length),
      (∀ j (hj : j < i), p (l.get ⟨j, Nat.lt_trans hj hi⟩) = false) →
      p a = true → (l.set i a).find? p = some a := by
  intro l
  induction l with
  | nil => intro i a hi; exact absurd hi (by simp)
  | cons x xs ih =>
      intro i a hi hbefore ha
      cases i with
      | zero => simp [List.find?_cons, ha]
      | succ k =>
          have hx : p x = false := hbefore 0 (Nat.succ_pos k)
          have hk : k < xs.length := by simpa using hi
          have hrec := ih k a hk
            (fun j hj => by
              have := hbefore (j + 1) (by omega)
              simpa using this) ha
          simp [List.set, List.find?_cons, hx, hrec]

/-- `find?` over an appended singleton hit, when the prefix misses. -/
theorem find?_append_hit {α : Type} {p : α → Bool} {l : List α} {a : α}
    (hall : ∀ x ∈ l, p x = false) (ha : p a = true) :
    (l ++ [a]).find? p = some a := by
  rw [List.find?_append]
  have h1 : l.find? p = none := by
    rw [List.find?_eq_none]
    intro x hx
    simp [hall x hx]
  simp [h1, List.find?_cons, ha]

/-! ## Claim C7: getData falls back to the defaults without writing -/

/-- C7: for every stored state whose blob is absent or fails to parse,
`getData` returns the default document
`{version = current, invoices = [], settings = default}` and performs no
write: the store after the call is exactly the store before, so a
corrupted blob is left intact. -/
theorem getData_default_no_write (s : Store)
    (h : s.blob = StoredBlob.absent ∨ s.blob = StoredBlob.corrupt) :
    getData s =
      ({ version := some APP_VERSION
         invoices := []
         settings :=
           { name := none
             address := none
             logo := none
             currency := some "USD"
             defaultTaxRate := some 0 } }, s) := by
  rcases s with ⟨blob, mode, len⟩
  rcases h with h | h <;> simp only at h <;> subst h <;> rfl

/-- Witness for C7 at a concrete corrupted store. -/
theorem getData_default_no_write_w :
    getData ⟨StoredBlob.corrupt, WriteMode.ok, 3⟩ =
      ({ version := some APP_VERSION
         invoices := []
         settings :=
           { name := none
             address := none
             logo := none
             currency := some "USD"
             defaultTaxRate := some 0 } }, ⟨StoredBlob.corrupt, WriteMode.ok, 3⟩) :=
  getData_default_no_write ⟨StoredBlob.corrupt, WriteMode.ok, 3⟩ (Or.inr rfl)

/-! ## Claim C2: validation failures return false and leave the store alone -/

/-- C2: for every input violating validation — not an object, or `client`
absent, or `client.name` empty (or absent), or `items` absent, not an
array, or the empty array — `saveInvoice` returns `false` (an ordinary
return, not an exception) and the stored document is completely
unchanged: the resulting store is exactly the input store, so the stored
invoice count is unaltered. -/
theorem saveInvoice_invalid_rejected (invoice : Option Invoice)
    (freshId now : String) (s : Store)
    (h : invoice = none ∨ ∃ inv, invoice = some inv ∧
      (inv.client = none ∨
       (∃ c, inv.client = some c ∧ jsTruthyStr c.name = false) ∨
       inv.items = ItemsField.absent ∨
       inv.items = ItemsField.nonArray ∨
       inv.items = ItemsField.arr [])) :
    saveInvoice invoice freshId now s = Except.ok (false, invoice, s) := by
  have hval : _validateInvoice invoice = false := by
    rcases h with rfl | ⟨inv, rfl, hc⟩
    · rfl
    · rcases hc with hc | ⟨c, hc, hn⟩ | hi | hi | hi
      · simp [_validateInvoice, hc]
      · simp [_validateInvoice, hc, hn]
      · cases hcl : inv.client <;>
          simp [_validateInvoice, hcl, hi, ItemsField.jsTruthy]
      · cases hcl : inv.client <;>
          simp [_validateInvoice, hcl, hi, ItemsField.jsTruthy]
      · cases hcl : inv.client <;>
          simp [_validateInvoice, hcl, hi, ItemsField.jsTruthy]
  simp [saveInvoice, hval]

/-- Witness for C2 at the spec's own test vector
`saveInvoice({client:{name:""}, items:[]})`. -/
theorem saveInvoice_invalid_rejected_w :
    saveInvoice
      (some { id := none, createdDate := none, dueDate := none, status := none
              client := some { name := some "", email := none, address := none }
              items := ItemsField.arr []
              subtotal := none, taxRate := none, taxAmount := none, total := none
              notes := none, updatedAt := none })
      "uuid-w2" "2025-01-01" ⟨StoredBlob.doc _getDefaults, WriteMode.ok, 1⟩ =
    Except.ok (false,
      some { id := none, createdDate := none, dueDate := none, status := none
             client := some { name := some "", email := none, address := none }
             items := ItemsField.arr []
             subtotal := none, taxRate := none, taxAmount := none, total := none
             notes := none, updatedAt := none },
      ⟨StoredBlob.doc _getDefaults, WriteMode.ok, 1⟩) :=
  saveInvoice_invalid_rejected _ "uuid-w2" "2025-01-01" _
    (Or.inr ⟨_, rfl, Or.inr (Or.inl ⟨_, rfl, by decide⟩)⟩)

/-! ## Claim C3: calculateInvoice arithmetic (modelled from the spec) -/

/-- The invoice of the spec's end-to-end example: items
`[{quantity:40, rate:75}, {quantity:1, rate:500}]` and `taxRate 8.5`. -/
def exampleInvoice : Invoice :=
  { id := none, createdDate := none, dueDate := none, status := some "draft"
    client := some { name := some "Acme Corporation", email := none, address := none }
    items := ItemsField.arr
      [ { id := none, description := some "Web Development Services"
          quantity := some 40, rate := some 75, amount := none }
      , { id := none, description := some "Hosting Setup"
          quantity := some 1, rate := some 500, amount := none } ]
    subtotal := none, taxRate := some (17 / 2), taxAmount := none, total := none
    notes := none, updatedAt := none }

/-- C3: `calculateInvoice` (a pure function of its argument — it is a
plain `def`, so it has no side effects and is deterministic) sets each
item's amount to `quantity × rate`, the subtotal to the sum of the item
amounts, `taxAmount` to `subtotal × taxRate / 100` and `total` to
`subtotal + taxAmount`, defaulting missing numeric inputs to 0. The
spec's concrete example is checked in the witness. -/
theorem calculateInvoice_fields (inv : Invoice) (l : List LineItem)
    (h : inv.items = ItemsField.arr l) :
    (calculateInvoice inv).items =
      ItemsField.arr (l.map (fun it =>
        { it with amount := some (it.quantity.getD 0 * it.rate.getD 0) })) ∧
    (calculateInvoice inv).subtotal =
      some ((l.map (fun it => it.quantity.getD 0 * it.rate.getD 0)).sum) ∧
    (calculateInvoice inv).taxAmount =
      some ((l.map (fun it => it.quantity.getD 0 * it.rate.getD 0)).sum *
        inv.taxRate.getD 0 / 100) ∧
    (calculateInvoice inv).total =
      some ((l.map (fun it => it.quantity.getD 0 * it.rate.getD 0)).sum +
        (l.map (fun it => it.quantity.getD 0 * it.rate.getD 0)).sum *
          inv.taxRate.getD 0 / 100) := by
  have hmap :
      ((l.map (fun it =>
        { it with amount := some (it.quantity.getD 0 * it.rate.getD 0) })).map
          (fun it => it.amount.getD 0)) =
      l.map (fun it => it.quantity.getD 0 * it.rate.getD 0) := by
    rw [List.map_map]
    rfl
  refine ⟨?_, ?_, ?_, ?_⟩ <;> simp only [calculateInvoice, h, hmap]

/-- Witness for C3: the spec's example yields subtotal 3500.00,
taxAmount 297.50 and total 3797.50. -/
theorem calculateInvoice_fields_w :
    (calculateInvoice exampleInvoice).subtotal = some 3500 ∧
    (calculateInvoice exampleInvoice).taxAmount = some (595 / 2) ∧
    (calculateInvoice exampleInvoice).total = some (7595 / 2) := by
  obtain ⟨h1, h2, h3, h4⟩ :=
    calculateInvoice_fields exampleInvoice
      [ { id := none, description := some "Web Development Services"
          quantity := some 40, rate := some 75, amount := none }
      , { id := none, description := some "Hosting Setup"
          quantity := some 1, rate := some 500, amount := none } ] rfl
  refine ⟨h2.trans (by norm_num [exampleInvoice]),
    h3.trans (by norm_num [exampleInvoice]),
    h4.trans (by norm_num [exampleInvoice])⟩

/-! ## Claim C4: quota and write errors from saveData (corrected) -/

/-- Counterexample for C4 as stated: the quota error message raised by
the code is `"Storage full. Please delete some invoices."`, not the
claimed `"storage full, delete some records"`; moreover a quota-style
rejection with an empty `localStorage` is classified as a
`WRITE_ERROR`, not a quota error. -/
theorem saveData_quota_message_cex :
    saveData _getDefaults ⟨StoredBlob.doc _getDefaults, WriteMode.quotaFull, 1⟩ =
      Except.error
        { message := "Storage full. Please delete some invoices."
          code := "QUOTA_EXCEEDED" } ∧
    "Storage full. Please delete some invoices." ≠
      "storage full, delete some records" ∧
    saveData _getDefaults ⟨StoredBlob.absent, WriteMode.quotaFull, 0⟩ =
      Except.error { message := "Failed to save data.", code := "WRITE_ERROR" } :=
  ⟨rfl, by decide, rfl⟩

/-- `saveInvoice` on a valid invoice forwards whatever error `saveData`
raises, in either branch of the upsert. -/
theorem saveInvoice_propagates (inv : Invoice) (freshId now : String)
    (s : Store) (e : StorageError)
    (hv : _validateInvoice (some inv) = true)
    (hsd : ∀ d : AppDocument, saveData d s = Except.error e) :
    saveInvoice (some inv) freshId now s = Except.error e := by
  have hs2 : (getData s).2 = s := getData_state s
  simp only [saveInvoice, hv, Bool.true_eq_false, if_false]
  cases hidx : (getData s).1.invoices.findIdx? (sameIdAs inv) <;>
    simp [hidx, hs2, hsd]

/-- `saveSettings` forwards whatever error `saveData` raises. -/
theorem saveSettings_propagates (st : Settings) (s : Store) (e : StorageError)
    (hsd : ∀ d : AppDocument, saveData d s = Except.error e) :
    saveSettings st s = Except.error e := by
  have hs2 : (getData s).2 = s := getData_state s
  simp [saveSettings, hs2, hsd]

/-- C4 (amended): when the platform rejects the write with a quota
signal and the store holds at least one key, `saveData` raises the
quota error with the message
`"Storage full. Please delete some invoices."`; a quota signal on an
empty store, or any other write failure, raises the generic write
error; and both surface unchanged to the callers of `saveInvoice` (on
valid input) and `saveSettings` rather than becoming a silent `false`. -/
theorem saveData_errors (d : AppDocument) (inv : Invoice) (st : Settings)
    (freshId now : String) (s : Store)
    (hv : _validateInvoice (some inv) = true) :
    (s.mode = WriteMode.quotaFull → s.storageLen ≠ 0 →
      saveData d s =
        Except.error
          { message := "Storage full. Please delete some invoices."
            code := "QUOTA_EXCEEDED" } ∧
      saveInvoice (some inv) freshId now s =
        Except.error
          { message := "Storage full. Please delete some invoices."
            code := "QUOTA_EXCEEDED" } ∧
      saveSettings st s =
        Except.error
          { message := "Storage full. Please delete some invoices."
            code := "QUOTA_EXCEEDED" }) ∧
    (s.mode = WriteMode.otherError →
      saveData d s =
        Except.error { message := "Failed to save data.", code := "WRITE_ERROR" } ∧
      saveInvoice (some inv) freshId now s =
        Except.error { message := "Failed to save data.", code := "WRITE_ERROR" } ∧
      saveSettings st s =
        Except.error { message := "Failed to save data.", code := "WRITE_ERROR" }) ∧
    (s.mode = WriteMode.quotaFull → s.storageLen = 0 →
      saveData d s =
        Except.error { message := "Failed to save data.", code := "WRITE_ERROR" }) := by
  refine ⟨?_, ?_, ?_⟩
  · intro hm hl
    have hsd : ∀ d' : AppDocument, saveData d' s =
        Except.error
          { message := "Storage full. Please delete some invoices."
            code := "QUOTA_EXCEEDED" } := by
      intro d'
      simp [saveData, hm, hl]
    exact ⟨hsd d, saveInvoice_propagates inv freshId now s _ hv hsd,
      saveSettings_propagates st s _ hsd⟩
  · intro hm
    have hsd : ∀ d' : AppDocument, saveData d' s =
        Except.error { message := "Failed to save data.", code := "WRITE_ERROR" } := by
      intro d'
      simp [saveData, hm]
    exact ⟨hsd d, saveInvoice_propagates inv freshId now s _ hv hsd,
      saveSettings_propagates st s _ hsd⟩
  · intro hm hl
    simp [saveData, hm, hl]

/-- A valid invoice used by several witnesses. -/
def validInvoice : Invoice :=
  { id := none, createdDate := none, dueDate := none, status := some "draft"
    client := some { name := some "Acme", email := some "a@acme.test", address := none }
    items := ItemsField.arr
      [ { id := none, description := some "Hosting"
          quantity := some 1, rate := some 500, amount := some 500 } ]
    subtotal := some 500, taxRate := some 0, taxAmount := some 0, total := some 500
    notes := none, updatedAt := none }

/-- Witness for C4 (amended) at a concrete quota-exhausted store. -/
theorem saveData_errors_w :
    _validateInvoice (some validInvoice) = true ∧
    saveData _getDefaults ⟨StoredBlob.doc _getDefaults, WriteMode.quotaFull, 2⟩ =
      Except.error
        { message := "Storage full. Please delete some invoices."
          code := "QUOTA_EXCEEDED" } ∧
    saveInvoice (some validInvoice) "uuid-w4" "2025-01-01"
        ⟨StoredBlob.doc _getDefaults, WriteMode.quotaFull, 2⟩ =
      Except.error
        { message := "Storage full. Please delete some invoices."
          code := "QUOTA_EXCEEDED" } ∧
    saveSettings
        { name := none, address := none, logo := none
          currency := some "USD", defaultTaxRate := some 0 }
        ⟨StoredBlob.doc _getDefaults, WriteMode.quotaFull, 2⟩ =
      Except.error
        { message := "Storage full. Please delete some invoices."
          code := "QUOTA_EXCEEDED" } := by
  have h :=
    (saveData_errors _getDefaults validInvoice
      { name := none, address := none, logo := none
        currency := some "USD", defaultTaxRate := some 0 }
      "uuid-w4" "2025-01-01" ⟨StoredBlob.doc _getDefaults, WriteMode.quotaFull, 2⟩
      (by decide)).1 rfl (by decide)
  exact ⟨by decide, h.1, h.2.1, h.2.2⟩

/-! ## Claim C5: searchInvoices -/

/-- Case-insensitive match of the lowercased query `term` against one
possibly-absent field, written from the spec's words: an absent field
matches nothing, a present one matches when `term` is a substring of
its lowercasing. -/
def optFieldIncludes (term : String) : Option String → Bool
  | none => false
  | some v => jsIncludes (jsToLower v) term

/-- The spec's search predicate, written from the spec's words: the
lowercased query matches the invoice id, the client name, the client
email, the status, OR any line item's description. -/
def specSearchMatch (term : String) (inv : Invoice) : Bool :=
  optFieldIncludes term inv.id ||
  (match inv.client with
   | none => false
   | some c => optFieldIncludes term c.name || optFieldIncludes term c.email) ||
  optFieldIncludes term inv.status ||
  (match inv.items with
   | ItemsField.arr l => l.any (fun item => optFieldIncludes term item.description)
   | _ => false)

/-- For a non-empty search term the code's guarded field test agrees
with the spec's: the truthiness guard only rules out the empty string,
which cannot contain a non-empty term anyway. -/
theorem guarded_field_eq_optFieldIncludes {term : String} (ht : term ≠ "")
    (o : Option String) :
    (jsTruthyStr o && jsIncludes (jsToLower (o.getD "")) term) =
      optFieldIncludes term o := by
  cases o with
  | none => rfl
  | some v =>
      by_cases hv : v = ""
      · subst hv
        simp [jsTruthyStr, optFieldIncludes, jsToLower,
          jsIncludes_empty_haystack ht]
      · simp [jsTruthyStr, optFieldIncludes, hv]

/-- For a non-empty term the code's filter predicate coincides with the
spec's logical-OR-across-fields predicate. -/
theorem invMatches_eq_specSearchMatch {term : String} (ht : term ≠ "")
    (inv : Invoice) : invMatches term inv = specSearchMatch term inv := by
  have hid := guarded_field_eq_optFieldIncludes ht inv.id
  have hst := guarded_field_eq_optFieldIncludes ht inv.status
  cases hcl : inv.client with
  | none =>
      cases hit : inv.items with
      | absent => simp [invMatches, specSearchMatch, hcl, hit, hid, hst]
      | nonArray => simp [invMatches, specSearchMatch, hcl, hit, hid, hst]
      | arr l =>
          simp only [invMatches, specSearchMatch, hcl, hit, hid, hst]
          have hdesc : ∀ item : LineItem,
              (jsTruthyStr item.description &&
                jsIncludes (jsToLower (item.description.getD "")) term) =
              optFieldIncludes term item.description :=
            fun item => guarded_field_eq_optFieldIncludes ht item.description
          simp only [hdesc]
          cases hb : (optFieldIncludes term inv.id || false || optFieldIncludes term inv.status) <;>
            simp [hb]
  | some c =>
      have hnm := guarded_field_eq_optFieldIncludes ht c.name
      have hem := guarded_field_eq_optFieldIncludes ht c.email
      cases hit : inv.items with
      | absent => simp [invMatches, specSearchMatch, hcl, hit, hid, hst, hnm, hem]
      | nonArray => simp [invMatches, specSearchMatch, hcl, hit, hid, hst, hnm, hem]
      | arr l =>
          simp only [invMatches, specSearchMatch, hcl, hit, hid, hst, hnm, hem]
          have hdesc : ∀ item : LineItem,
              (jsTruthyStr item.description &&
                jsIncludes (jsToLower (item.description.getD "")) term) =
              optFieldIncludes term item.description :=
            fun item => guarded_field_eq_optFieldIncludes ht item.description
          simp only [hdesc]
          cases hb : (optFieldIncludes term inv.id ||
              (optFieldIncludes term c.name || optFieldIncludes term c.email) ||
              optFieldIncludes term inv.status) <;>
            simp [hb]

/-- C5: an empty or absent query returns all invoices in unchanged
order (and the store untouched); a non-empty query returns exactly the
invoices on which the lowercased query matches the id, client name,
client email, status, or any line item's description (logical OR,
case-insensitive substring), and the result is a sublist of the stored
sequence — the underlying order, not a re-sort. -/
theorem searchInvoices_spec (s : Store) (q : Option String) :
    (jsTruthyStr q = false → searchInvoices q s = getInvoices s) ∧
    (∀ qs : String, q = some qs → qs ≠ "" →
      (searchInvoices q s).1 =
        (getInvoices s).1.filter (specSearchMatch (jsToLower qs)) ∧
      List.Sublist (searchInvoices q s).1 (getInvoices s).1) := by
  constructor
  · intro h
    simp [searchInvoices, h]
  · rintro qs rfl hqs
    have hq : jsTruthyStr (some qs) = true := by simp [jsTruthyStr, hqs]
    have ht : jsToLower qs ≠ "" := jsToLower_ne_empty hqs
    have hsearch : (searchInvoices (some qs) s).1 =
        (getInvoices s).1.filter (invMatches (jsToLower qs)) := by
      simp [searchInvoices, hq]
    constructor
    · rw [hsearch]
      exact List.filter_congr
        (fun inv _ => invMatches_eq_specSearchMatch ht inv)
    · rw [hsearch]
      exact List.filter_sublist _

/-- The two invoices of the spec's search example: "Acme" with a
"Hosting" line item, and "Globex". -/
def acmeInvoice : Invoice :=
  { id := some "inv-001", createdDate := none, dueDate := none, status := some "draft"
    client := some { name := some "Acme", email := none, address := none }
    items := ItemsField.arr
      [ { id := none, description := some "Hosting"
          quantity := some 1, rate := some 10, amount := some 10 } ]
    subtotal := none, taxRate := none, taxAmount := none, total := none
    notes := none, updatedAt := none }

/-- Second invoice of the spec's search example. -/
def globexInvoice : Invoice :=
  { id := some "inv-002", createdDate := none, dueDate := none, status := some "draft"
    client := some { name := some "Globex", email := none, address := none }
    items := ItemsField.arr
      [ { id := none, description := some "Consulting"
          quantity := some 1, rate := some 10, amount := some 10 } ]
    subtotal := none, taxRate := none, taxAmount := none, total := none
    notes := none, updatedAt := none }

/-- The store holding the two search-example invoices. -/
def searchStore : Store :=
  ⟨StoredBlob.doc
    { version := some APP_VERSION
      invoices := [acmeInvoice, globexInvoice]
      settings :=
        { name := none, address := none, logo := none
          currency := some "USD", defaultTaxRate := some 0 } },
   WriteMode.ok, 1⟩

/-- Witness for C5 at the spec's example: `searchInvoices("hosting")`
returns only the Acme invoice, and an empty query returns both,
unfiltered. -/
theorem searchInvoices_spec_w :
    (searchInvoices (some "hosting") searchStore).1 = [acmeInvoice] ∧
    searchInvoices (some "") searchStore = getInvoices searchStore := by
  constructor
  · have h := ((searchInvoices_spec searchStore (some "hosting")).2
      "hosting" rfl (by decide)).1
    rw [h]
    decide
  · exact (searchInvoices_spec searchStore (some "")).1 (by decide)

/-! ## Claim C6: deleteInvoice -/

/-- The matching predicate of a delete: the stored entry's id equals the
requested id. -/
def hasId (id : String) : Invoice → Bool :=
  fun inv => decide (inv.id = some id)

/-- `deleteInvoice` unfolded to its branch structure. -/
theorem deleteInvoice_eq (id : String) (s : Store) :
    deleteInvoice id s =
      if ((getData s).1.invoices.filter (fun inv => decide (inv.id ≠ some id))).length ≠
          (getData s).1.invoices.length then
        match saveData
            { (getData s).1 with
              invoices :=
                (getData s).1.invoices.filter (fun inv => decide (inv.id ≠ some id)) }
            (getData s).2 with
        | Except.ok s2 => (true, s2)
        | Except.error _ => (false, (getData s).2)
      else (false, (getData s).2) := rfl

/-- `saveData` on a store whose platform write succeeds. -/
theorem saveData_mode_ok (d : AppDocument) (s : Store)
    (hm : s.mode = WriteMode.ok) :
    saveData d s = Except.ok
      { s with
        blob := StoredBlob.doc d
        storageLen :=
          match s.blob with
          | StoredBlob.absent => s.storageLen + 1
          | _ => s.storageLen } := by
  unfold saveData
  rw [hm]

/-- The delete filter keeps everything iff nothing matches. -/
theorem delete_filter_length_iff (id : String) (l : List Invoice) :
    ((l.filter (fun inv => decide (inv.id ≠ some id))).length ≠ l.length) ↔
      ∃ inv ∈ l, inv.id = some id := by
  constructor
  · intro hne
    have hlt : (l.filter (fun inv => decide (inv.id ≠ some id))).length < l.length :=
      lt_of_le_of_ne (List.length_filter_le _ _) hne
    obtain ⟨x, hx, hpx⟩ := List.length_filter_lt_length_iff_exists.mp hlt
    exact ⟨x, hx, by simpa using hpx⟩
  · rintro ⟨x, hx, hpx⟩ heq
    have hlt : (l.filter (fun inv => decide (inv.id ≠ some id))).length < l.length := by
      apply List.length_filter_lt_length_iff_exists.mpr
      exact ⟨x, hx, by simp [hpx]⟩
    omega

/-- C6: with a functioning store, `deleteInvoice id` returns `true`
exactly when some stored invoice carries that id (the code decides this
by comparing filtered and original list lengths); on no match it
returns `false`, performs no write and leaves the store untouched; and
when exactly one invoice matches, it returns `true` and the persisted
document holds exactly one invoice fewer. -/
theorem deleteInvoice_spec (id : String) (s : Store)
    (hm : s.mode = WriteMode.ok) :
    ((deleteInvoice id s).1 = true ↔ ∃ inv ∈ (getInvoices s).1, inv.id = some id) ∧
    ((∀ inv ∈ (getInvoices s).1, inv.id ≠ some id) → deleteInvoice id s = (false, s)) ∧
    ((getInvoices s).1.countP (hasId id) = 1 →
      ∃ s2 d2, deleteInvoice id s = (true, s2) ∧ s2.blob = StoredBlob.doc d2 ∧
        d2.invoices.length + 1 = (getInvoices s).1.length) := by
  have hs2 : (getData s).2 = s := getData_state s
  have hinvs : (getInvoices s).1 = (getData s).1.invoices := rfl
  rw [deleteInvoice_eq, hs2, hinvs]
  rw [saveData_mode_ok _ s hm]
  refine ⟨?_, ?_, ?_⟩
  · constructor
    · intro htrue
      by_contra hno
      rw [if_neg (fun hne => hno ((delete_filter_length_iff id _).mp hne))] at htrue
      simp at htrue
    · intro hex
      rw [if_pos ((delete_filter_length_iff id _).mpr hex)]
  · intro hall
    rw [if_neg]
    intro hne
    obtain ⟨x, hx, hpx⟩ := (delete_filter_length_iff id _).mp hne
    exact hall x hx hpx
  · intro hcount
    have hfl :
        ((getData s).1.invoices.filter (fun inv => decide (inv.id ≠ some id))).length + 1 =
          (getData s).1.invoices.length := by
      have hsplit := List.length_eq_countP_add_countP (hasId id) (getData s).1.invoices
      have h2 : (getData s).1.invoices.countP (fun a => decide (¬ hasId id a = true)) =
          ((getData s).1.invoices.filter (fun inv => decide (inv.id ≠ some id))).length := by
        rw [List.countP_eq_length_filter]
        apply congrArg List.length
        apply List.filter_congr
        intro x _
        simp [hasId]
      omega
    rw [if_pos (by omega)]
    exact ⟨_, _, rfl, rfl, by simpa using hfl⟩

/-- The single invoice stored in `deleteStore`. -/
def storedInvoice007 : Invoice :=
  { id := some "inv-007", createdDate := none, dueDate := none
    status := some "draft"
    client := some { name := some "Acme", email := none, address := none }
    items := ItemsField.arr
      [ { id := none, description := some "Hosting"
          quantity := some 1, rate := some 10, amount := some 10 } ]
    subtotal := none, taxRate := none, taxAmount := none, total := none
    notes := none, updatedAt := none }

/-- The store used by the delete witness: one stored invoice with id
`"inv-007"`. -/
def deleteStore : Store :=
  ⟨StoredBlob.doc
    { version := some APP_VERSION
      invoices := [storedInvoice007]
      settings :=
        { name := none, address := none, logo := none
          currency := some "USD", defaultTaxRate := some 0 } },
   WriteMode.ok, 1⟩

/-- Witness for C6: deleting a non-existent id returns `false` with the
store unchanged; deleting the present id returns `true`. -/
theorem deleteInvoice_spec_w :
    deleteInvoice "nope" deleteStore = (false, deleteStore) ∧
    (deleteInvoice "inv-007" deleteStore).1 = true := by
  constructor
  · exact (deleteInvoice_spec "nope" deleteStore rfl).2.1 (by decide)
  · exact ((deleteInvoice_spec "inv-007" deleteStore rfl).1).mpr
      ⟨storedInvoice007, by decide, by decide⟩

/-! ## Claim C8: write-error propagation (corrected) -/

/-- The store used to exhibit error absorption: one stored invoice and a
platform that rejects writes with a quota signal. -/
def quotaStore : Store :=
  ⟨StoredBlob.doc
    { version := some APP_VERSION
      invoices := [storedInvoice007]
      settings :=
        { name := none, address := none, logo := none
          currency := some "USD", defaultTaxRate := some 0 } },
   WriteMode.quotaFull, 1⟩

/-- Counterexample for C8 as stated: with a stored invoice `"inv-007"`
and a store that rejects every write with a quota signal, the requested
delete fails at `saveData`, yet `deleteInvoice` returns the ordinary
result `false` with the store unchanged — the storage error is absorbed
by its catch-all, not propagated to the caller. -/
theorem deleteInvoice_absorbs_cex :
    storedInvoice007 ∈ (getInvoices quotaStore).1 ∧
    storedInvoice007.id = some "inv-007" ∧
    saveData _getDefaults quotaStore =
      Except.error
        { message := "Storage full. Please delete some invoices."
          code := "QUOTA_EXCEEDED" } ∧
    deleteInvoice "inv-007" quotaStore = (false, quotaStore) :=
  ⟨by decide, rfl, rfl, rfl⟩

/-- `deleteInvoice` returns the ordinary `(false, unchanged store)` when
every write raises, instead of re-throwing. -/
theorem deleteInvoice_error_absorbed (id : String) (s : Store) (e : StorageError)
    (hsd : ∀ d : AppDocument, saveData d s = Except.error e) :
    deleteInvoice id s = (false, s) := by
  rw [deleteInvoice_eq, getData_state]
  split
  · rw [hsd]
  · rfl

/-- C8 (amended): when the store rejects writes, `saveInvoice` (on valid
input) and `saveSettings` propagate the storage error to their caller
unchanged; `deleteInvoice` alone absorbs it, reporting failure as the
ordinary result `false` with the store left untouched — it never
reports a dropped write as a success. -/
theorem storage_error_propagation (inv : Invoice) (st : Settings) (id : String)
    (freshId now : String) (s : Store)
    (hv : _validateInvoice (some inv) = true)
    (hm : s.mode ≠ WriteMode.ok) :
    ∃ e : StorageError,
      saveInvoice (some inv) freshId now s = Except.error e ∧
      saveSettings st s = Except.error e ∧
      deleteInvoice id s = (false, s) := by
  have hsd : ∃ e : StorageError, ∀ d : AppDocument, saveData d s = Except.error e := by
    cases hmode : s.mode with
    | ok => exact absurd hmode hm
    | quotaFull =>
        by_cases hl : s.storageLen = 0
        · exact ⟨{ message := "Failed to save data.", code := "WRITE_ERROR" },
            fun d => by simp [saveData, hmode, hl]⟩
        · exact ⟨{ message := "Storage full. Please delete some invoices."
                   code := "QUOTA_EXCEEDED" },
            fun d => by simp [saveData, hmode, hl]⟩
    | otherError =>
        exact ⟨{ message := "Failed to save data.", code := "WRITE_ERROR" },
          fun d => by simp [saveData, hmode]⟩
  obtain ⟨e, he⟩ := hsd
  exact ⟨e, saveInvoice_propagates inv freshId now s e hv he,
    saveSettings_propagates st s e he,
    deleteInvoice_error_absorbed id s e he⟩

/-- Witness for C8 (amended) at the concrete quota-rejecting store. -/
theorem storage_error_propagation_w :
    _validateInvoice (some validInvoice) = true ∧
    quotaStore.mode ≠ WriteMode.ok ∧
    (∃ e : StorageError,
      saveInvoice (some validInvoice) "uuid-w8" "2025-01-01" quotaStore =
        Except.error e ∧
      saveSettings
        { name := none, address := none, logo := none
          currency := some "USD", defaultTaxRate := some 0 } quotaStore =
        Except.error e ∧
      deleteInvoice "inv-007" quotaStore = (false, quotaStore)) :=
  ⟨by decide, by decide,
    storage_error_propagation validInvoice
      { name := none, address := none, logo := none
        currency := some "USD", defaultTaxRate := some 0 }
      "inv-007" "uuid-w8" "2025-01-01" quotaStore (by decide) (by decide)⟩

/-! ## Infrastructure for the upsert claims (C1, C9, C10) -/

/-- `getD` at the replaced position. -/
theorem getD_set_self {α : Type} (l : List α) {i : ℕ} (hi : i < l.length)
    (a d : α) : (l.set i a).getD i d = a := by
  rw [List.getD_eq_getElem?_getD, List.getElem?_set_self hi]
  rfl

/-- `getD` away from the replaced position. -/
theorem getD_set_ne {α : Type} (l : List α) {i j : ℕ} (h : i ≠ j)
    (a d : α) : (l.set i a).getD j d = l.getD j d := by
  rw [List.getD_eq_getElem?_getD, List.getElem?_set_ne h,
    ← List.getD_eq_getElem?_getD]

/-- One field of a shallow merge, in the spec's words: a field absent on
the incoming partial is preserved from the existing record, a present
one replaces it. -/
def OptionPreserved {α : Type} (oldF incF mergedF : Option α) : Prop :=
  (incF = none → mergedF = oldF) ∧ ∀ v, incF = some v → mergedF = some v

/-- `Option.or` realises `OptionPreserved`. -/
theorem optionPreserved_or {α : Type} (o i : Option α) :
    OptionPreserved o i (i.or o) := by
  cases i <;> simp [OptionPreserved, Option.or]

/-- The spec's description of the update branch's merge: `updatedAt` is
stamped with the current timestamp, and every other field of the
merged record comes from the incoming object when present there and
from the existing entry otherwise. -/
def SpecMergedFields (old inc merged : Invoice) (now : String) : Prop :=
  merged.updatedAt = some now ∧
  OptionPreserved old.id inc.id merged.id ∧
  OptionPreserved old.createdDate inc.createdDate merged.createdDate ∧
  OptionPreserved old.dueDate inc.dueDate merged.dueDate ∧
  OptionPreserved old.status inc.status merged.status ∧
  OptionPreserved old.client inc.client merged.client ∧
  (inc.items = ItemsField.absent → merged.items = old.items) ∧
  (inc.items ≠ ItemsField.absent → merged.items = inc.items) ∧
  OptionPreserved old.subtotal inc.subtotal merged.subtotal ∧
  OptionPreserved old.taxRate inc.taxRate merged.taxRate ∧
  OptionPreserved old.taxAmount inc.taxAmount merged.taxAmount ∧
  OptionPreserved old.total inc.total merged.total ∧
  OptionPreserved old.notes inc.notes merged.notes

/-- The code's `{ ...existing, ...invoice, updatedAt: now }` satisfies
the spec's merge description. -/
theorem spreadMerge_specMerged (old inc : Invoice) (now : String) :
    SpecMergedFields old inc
      { spreadMerge old inc with updatedAt := some now } now := by
  refine ⟨rfl, optionPreserved_or _ _, optionPreserved_or _ _,
    optionPreserved_or _ _, optionPreserved_or _ _, optionPreserved_or _ _,
    ?_, ?_, optionPreserved_or _ _, optionPreserved_or _ _,
    optionPreserved_or _ _, optionPreserved_or _ _, optionPreserved_or _ _⟩
  · intro h
    show (match inc.items with
      | ItemsField.absent => old.items
      | x => x) = old.items
    rw [h]
  · intro h
    show (match inc.items with
      | ItemsField.absent => old.items
      | x => x) = inc.items
    cases hitem : inc.items with
    | absent => exact absurd hitem h
    | nonArray => rfl
    | arr l => rfl

/-- The invoice object as mutated in place by `saveInvoice`'s create
branch: a fresh id when the incoming one is falsy, `createdDate`
stamped when falsy. -/
def stampCreate (inv : Invoice) (freshId now : String) : Invoice :=
  let inv1 := if jsTruthyStr inv.id then inv else { inv with id := some freshId }
  if jsTruthyStr inv1.createdDate then inv1
  else { inv1 with createdDate := some now }

/-- The spec's description of the create branch's stamping: id assigned
when absent/falsy, `createdDate` stamped when absent/falsy, every
other field untouched — in particular no `updatedAt` stamp. -/
def CreateStamped (inc out : Invoice) (freshId now : String) : Prop :=
  (jsTruthyStr inc.id = false → out.id = some freshId) ∧
  (jsTruthyStr inc.id = true → out.id = inc.id) ∧
  (jsTruthyStr inc.createdDate = false → out.createdDate = some now) ∧
  (jsTruthyStr inc.createdDate = true → out.createdDate = inc.createdDate) ∧
  out.dueDate = inc.dueDate ∧
  out.status = inc.status ∧
  out.client = inc.client ∧
  out.items = inc.items ∧
  out.subtotal = inc.subtotal ∧
  out.taxRate = inc.taxRate ∧
  out.taxAmount = inc.taxAmount ∧
  out.total = inc.total ∧
  out.notes = inc.notes ∧
  out.updatedAt = inc.updatedAt

/-- `stampCreate` satisfies the spec's create-branch stamping. -/
theorem stampCreate_spec (inv : Invoice) (freshId now : String) :
    CreateStamped inv (stampCreate inv freshId now) freshId now := by
  unfold CreateStamped stampCreate
  cases hid : jsTruthyStr inv.id <;>
    cases hcd : jsTruthyStr inv.createdDate <;>
      simp [hid, hcd]

/-- The update branch of `saveInvoice`, characterised: on valid input
with a matching stored id and a functioning store, the matched entry is
replaced by the spread merge (stamped with `updatedAt`), the caller's
object is returned unmodified, and the whole document is persisted. -/
theorem saveInvoice_update_branch (inv : Invoice) (freshId now : String)
    (s : Store) (i : ℕ)
    (hv : _validateInvoice (some inv) = true)
    (hm : s.mode = WriteMode.ok)
    (hidx : (getData s).1.invoices.findIdx? (sameIdAs inv) = some i) :
    saveInvoice (some inv) freshId now s =
      Except.ok (true, some inv,
        { (getData s).2 with
          blob := StoredBlob.doc
            { (getData s).1 with
              invoices := (getData s).1.invoices.set i
                { spreadMerge ((getData s).1.invoices.getD i default) inv with
                  updatedAt := some now } }
          storageLen :=
            match (getData s).2.blob with
            | StoredBlob.absent => (getData s).2.storageLen + 1
            | _ => (getData s).2.storageLen }) := by
  have hm2 : (getData s).2.mode = WriteMode.ok := by
    rw [getData_state]
    exact hm
  simp only [saveInvoice, hv, Bool.true_eq_false, if_false, hidx]
  rw [saveData_mode_ok _ _ hm2]

/-- The create branch of `saveInvoice`, characterised: on valid input
with no matching stored id and a functioning store, the caller's object
is stamped in place (`stampCreate`), that very object is appended, the
whole document is persisted, and that object is also handed back. -/
theorem saveInvoice_create_branch (inv : Invoice) (freshId now : String)
    (s : Store)
    (hv : _validateInvoice (some inv) = true)
    (hm : s.mode = WriteMode.ok)
    (hidx : (getData s).1.invoices.findIdx? (sameIdAs inv) = none) :
    saveInvoice (some inv) freshId now s =
      Except.ok (true, some (stampCreate inv freshId now),
        { (getData s).2 with
          blob := StoredBlob.doc
            { (getData s).1 with
              invoices := (getData s).1.invoices ++ [stampCreate inv freshId now] }
          storageLen :=
            match (getData s).2.blob with
            | StoredBlob.absent => (getData s).2.storageLen + 1
            | _ => (getData s).2.storageLen }) := by
  have hm2 : (getData s).2.mode = WriteMode.ok := by
    rw [getData_state]
    exact hm
  simp only [saveInvoice, hv, Bool.true_eq_false, if_false, hidx]
  rw [saveData_mode_ok _ _ hm2]
  rfl

/-- A valid invoice has a present client. -/
theorem valid_client_some (inv : Invoice)
    (hv : _validateInvoice (some inv) = true) : ∃ c, inv.client = some c := by
  cases hcl : inv.client with
  | none => simp [_validateInvoice, hcl] at hv
  | some c => exact ⟨c, rfl⟩

/-- A valid invoice carries a non-empty items array. -/
theorem valid_items_arr (inv : Invoice)
    (hv : _validateInvoice (some inv) = true) :
    ∃ l, inv.items = ItemsField.arr l ∧ l ≠ [] := by
  obtain ⟨c, hcl⟩ := valid_client_some inv hv
  have hv2 := hv
  simp only [_validateInvoice, hcl] at hv2
  cases hit : inv.items with
  | absent => rw [hit] at hv2; simp [ItemsField.jsTruthy] at hv2
  | nonArray => rw [hit] at hv2; simp [ItemsField.jsTruthy] at hv2
  | arr l =>
      rw [hit] at hv2
      refine ⟨l, rfl, ?_⟩
      intro hnil
      rw [hnil] at hv2
      simp [ItemsField.jsTruthy] at hv2

/-! ## Claim C1: saveInvoice performs an upsert -/

/-- C1: on every invoice that passes validation, with a functioning
store: if the loaded document holds an entry with the same id
(`findIdx?` by `===`), that entry — and only that entry — is replaced
by the shallow merge preserving existing fields absent on the incoming
object and stamping `updatedAt`; otherwise the incoming object gets a
fresh id when its own is absent and a `createdDate` stamp when absent,
and is appended at the end. In both branches the whole document (same
version and settings) is persisted and `saveInvoice` returns `true`. -/
theorem saveInvoice_upsert (inv : Invoice) (freshId now : String) (s : Store)
    (hv : _validateInvoice (some inv) = true) (hm : s.mode = WriteMode.ok) :
    (∀ i, (getData s).1.invoices.findIdx? (sameIdAs inv) = some i →
      ∃ s2 d2,
        saveInvoice (some inv) freshId now s = Except.ok (true, some inv, s2) ∧
        s2.blob = StoredBlob.doc d2 ∧
        d2.version = (getData s).1.version ∧
        d2.settings = (getData s).1.settings ∧
        d2.invoices.length = (getData s).1.invoices.length ∧
        SpecMergedFields ((getData s).1.invoices.getD i default) inv
          (d2.invoices.getD i default) now ∧
        ∀ j, j ≠ i →
          d2.invoices.getD j default = (getData s).1.invoices.getD j default) ∧
    ((getData s).1.invoices.findIdx? (sameIdAs inv) = none →
      ∃ s2 d2 out,
        saveInvoice (some inv) freshId now s = Except.ok (true, some out, s2) ∧
        s2.blob = StoredBlob.doc d2 ∧
        d2.version = (getData s).1.version ∧
        d2.settings = (getData s).1.settings ∧
        d2.invoices = (getData s).1.invoices ++ [out] ∧
        CreateStamped inv out freshId now) := by
  constructor
  · intro i hidx
    obtain ⟨hi, -, -⟩ := findIdx?_some_facts hidx
    refine ⟨_, _, saveInvoice_update_branch inv freshId now s i hv hm hidx,
      rfl, rfl, rfl, by simp, ?_, ?_⟩
    · rw [getD_set_self _ hi]
      exact spreadMerge_specMerged _ _ _
    · intro j hj
      exact getD_set_ne _ (fun h => hj h.symm) _ _
  · intro hidx
    exact ⟨_, _, _, saveInvoice_create_branch inv freshId now s hv hm hidx,
      rfl, rfl, rfl, rfl, stampCreate_spec inv freshId now⟩

/-- The settings record shared by the concrete sample stores. -/
def usdSettings : Settings :=
  { name := none, address := none, logo := none
    currency := some "USD", defaultTaxRate := some 0 }

/-- A stored invoice with id `"a"` and notes `"keep"`; the update-branch
samples overwrite it. -/
def oldInvoiceA : Invoice :=
  { id := some "a", createdDate := some "2024-01-01", dueDate := none
    status := some "draft"
    client := some { name := some "Old Client", email := none, address := none }
    items := ItemsField.arr
      [ { id := none, description := some "Old work"
          quantity := some 1, rate := some 100, amount := some 100 } ]
    subtotal := some 100, taxRate := some 0, taxAmount := some 0, total := some 100
    notes := some "keep", updatedAt := none }

/-- A valid incoming invoice with the same id `"a"` but no `notes`. -/
def incomingA : Invoice :=
  { id := some "a", createdDate := none, dueDate := none
    status := some "paid"
    client := some { name := some "New Client", email := none, address := none }
    items := ItemsField.arr
      [ { id := none, description := some "New work"
          quantity := some 2, rate := some 50, amount := some 100 } ]
    subtotal := none, taxRate := none, taxAmount := none, total := none
    notes := none, updatedAt := none }

/-- The store holding `oldInvoiceA`. -/
def storeA : Store :=
  ⟨StoredBlob.doc
    { version := some APP_VERSION, invoices := [oldInvoiceA], settings := usdSettings },
   WriteMode.ok, 1⟩

/-- Witness for C1 at a concrete update: saving `incomingA` over
`oldInvoiceA`. -/
theorem saveInvoice_upsert_w :
    _validateInvoice (some incomingA) = true ∧
    (∃ s2 d2,
      saveInvoice (some incomingA) "uuid-w1" "t1" storeA =
        Except.ok (true, some incomingA, s2) ∧
      s2.blob = StoredBlob.doc d2 ∧
      d2.version = (getData storeA).1.version ∧
      d2.settings = (getData storeA).1.settings ∧
      d2.invoices.length = (getData storeA).1.invoices.length ∧
      SpecMergedFields ((getData storeA).1.invoices.getD 0 default) incomingA
        (d2.invoices.getD 0 default) "t1" ∧
      ∀ j, j ≠ 0 →
        d2.invoices.getD j default = (getData storeA).1.invoices.getD j default) :=
  ⟨by decide,
    (saveInvoice_upsert incomingA "uuid-w1" "t1" storeA (by decide) rfl).1
      0 (by decide)⟩

/-! ## Claim C10: the create branch mutates and appends the caller's object -/

/-- C10: in the create branch (no stored invoice matches the incoming
id), the caller's invoice object is mutated in place — a fresh id is
assigned when the incoming id is absent, `createdDate` is stamped when
absent — and that very object (`out` below is simultaneously the value
handed back to the caller and the entry appended to the document) is
appended at the end, so the caller's reference carries the generated
id; no `updatedAt` field is stamped on creation. -/
theorem saveInvoice_create_mutates (inv : Invoice) (freshId now : String)
    (s : Store)
    (hv : _validateInvoice (some inv) = true)
    (hm : s.mode = WriteMode.ok)
    (hidx : (getData s).1.invoices.findIdx? (sameIdAs inv) = none) :
    ∃ s2 d2 out,
      saveInvoice (some inv) freshId now s = Except.ok (true, some out, s2) ∧
      s2.blob = StoredBlob.doc d2 ∧
      d2.invoices = (getData s).1.invoices ++ [out] ∧
      (jsTruthyStr inv.id = false → out.id = some freshId) ∧
      (jsTruthyStr inv.id = true → out.id = inv.id) ∧
      (jsTruthyStr inv.createdDate = false → out.createdDate = some now) ∧
      out.updatedAt = inv.updatedAt := by
  obtain ⟨h1, h2, h3, h4, h5, h6, h7, h8, h9, h10, h11, h12, h13, h14⟩ :=
    stampCreate_spec inv freshId now
  exact ⟨_, _, _, saveInvoice_create_branch inv freshId now s hv hm hidx,
    rfl, rfl, h1, h2, h3, h14⟩

/-- The store used by the create-branch witnesses: a stored document
with no invoices. -/
def createStore : Store := ⟨StoredBlob.doc _getDefaults, WriteMode.ok, 1⟩

/-- Witness for C10: creating `validInvoice` (whose id is absent) in an
empty document. -/
theorem saveInvoice_create_mutates_w :
    _validateInvoice (some validInvoice) = true ∧
    (∃ s2 d2 out,
      saveInvoice (some validInvoice) "uuid-w10" "t10" createStore =
        Except.ok (true, some out, s2) ∧
      s2.blob = StoredBlob.doc d2 ∧
      d2.invoices = (getData createStore).1.invoices ++ [out] ∧
      (jsTruthyStr validInvoice.id = false → out.id = some "uuid-w10") ∧
      (jsTruthyStr validInvoice.id = true → out.id = validInvoice.id) ∧
      (jsTruthyStr validInvoice.createdDate = false → out.createdDate = some "t10") ∧
      out.updatedAt = validInvoice.updatedAt) :=
  ⟨by decide,
    saveInvoice_create_mutates validInvoice "uuid-w10" "t10" createStore
      (by decide) rfl (by decide)⟩

/-! ## Claim C9: save/get round trip (corrected) -/

/-- The record actually retrieved after saving `incomingA` over
`oldInvoiceA`: the spread merge keeps the old `notes`. -/
def mergedA : Invoice :=
  { id := some "a", createdDate := some "2024-01-01", dueDate := none
    status := some "paid"
    client := some { name := some "New Client", email := none, address := none }
    items := ItemsField.arr
      [ { id := none, description := some "New work"
          quantity := some 2, rate := some 50, amount := some 100 } ]
    subtotal := some 100, taxRate := some 0, taxAmount := some 0, total := some 100
    notes := some "keep", updatedAt := some "t9" }

/-- The store left behind by that save. -/
def storeA2 : Store :=
  ⟨StoredBlob.doc
    { version := some APP_VERSION, invoices := [mergedA], settings := usdSettings },
   WriteMode.ok, 1⟩

/-- Counterexample for C9 as stated: `incomingA` is valid and saved
successfully, yet the record that `getInvoice` then returns carries
`notes = "keep"` inherited from the previously stored entry while the
saved input's `notes` is absent — the retrieved `notes` does not equal
the saved input's. -/
theorem roundtrip_notes_cex :
    _validateInvoice (some incomingA) = true ∧
    saveInvoice (some incomingA) "u9" "t9" storeA =
      Except.ok (true, some incomingA, storeA2) ∧
    (getInvoice incomingA.id storeA2).1 = some mergedA ∧
    incomingA.notes = none ∧
    mergedA.notes = some "keep" ∧
    mergedA.notes ≠ incomingA.notes :=
  ⟨by decide, rfl, rfl, rfl, rfl, by decide⟩

/-- C9 (amended): for every valid invoice saved successfully with a
functioning store and a genuinely fresh generated id, the subsequent
`getInvoice` on the saved object's id returns a record whose `client`
and `items` equal the saved input's, and whose `notes` equals the saved
input's whenever `notes` is present on the input — an update whose
`notes` is absent instead inherits the previously stored entry's
`notes` (and derived/stamped fields are likewise ignored). -/
theorem save_get_roundtrip (inv : Invoice) (freshId now : String) (s : Store)
    (hv : _validateInvoice (some inv) = true)
    (hm : s.mode = WriteMode.ok)
    (hfresh : ∀ o ∈ (getData s).1.invoices, o.id ≠ some freshId) :
    ∃ out s2 r,
      saveInvoice (some inv) freshId now s = Except.ok (true, some out, s2) ∧
      (getInvoice out.id s2).1 = some r ∧
      r.client = inv.client ∧
      r.items = inv.items ∧
      ∀ v, inv.notes = some v → r.notes = some v := by
  obtain ⟨c, hc⟩ := valid_client_some inv hv
  obtain ⟨larr, hla, -⟩ := valid_items_arr inv hv
  cases hidx : (getData s).1.invoices.findIdx? (sameIdAs inv) with
  | some i =>
      obtain ⟨hi, hpi, hbef⟩ := findIdx?_some_facts hidx
      refine ⟨inv, _,
        { spreadMerge ((getData s).1.invoices.getD i default) inv with
          updatedAt := some now },
        saveInvoice_update_branch inv freshId now s i hv hm hidx, ?_, ?_, ?_, ?_⟩
      · show ((getData s).1.invoices.set i
            { spreadMerge ((getData s).1.invoices.getD i default) inv with
              updatedAt := some now }).find?
            (fun o => decide (o.id = inv.id)) =
          some { spreadMerge ((getData s).1.invoices.getD i default) inv with
                 updatedAt := some now }
        apply find?_set_hit _ i _ hi
        · intro j hj
          exact hbef j hj
        · show decide
            (({ spreadMerge ((getData s).1.invoices.getD i default) inv with
                updatedAt := some now }).id = inv.id) = true
          rw [decide_eq_true_eq]
          show inv.id.or ((getData s).1.invoices.getD i default).id = inv.id
          cases hinvid : inv.id with
          | some v => rfl
          | none =>
              show ((getData s).1.invoices.getD i default).id = none
              have hold : ((getData s).1.invoices[i]).id = inv.id := by
                have h := hpi
                unfold sameIdAs at h
                rw [List.get_eq_getElem] at h
                exact of_decide_eq_true h
              rw [List.getD_eq_getElem _ _ hi, hold, hinvid]
      · show (inv.client.or _) = inv.client
        simp [hc, Option.or]
      · show (match inv.items with
          | ItemsField.absent => ((getData s).1.invoices.getD i default).items
          | x => x) = inv.items
        rw [hla]
      · intro v hn
        show (inv.notes.or _) = some v
        simp [hn, Option.or]
  | none =>
      obtain ⟨h1, h2, h3, h4, h5, h6, h7, h8, h9, h10, h11, h12, h13, h14⟩ :=
        stampCreate_spec inv freshId now
      have hall : ∀ x ∈ (getData s).1.invoices,
          (fun o => decide (o.id = (stampCreate inv freshId now).id)) x = false := by
        intro x hx
        cases hid : jsTruthyStr inv.id with
        | true =>
            rw [h2 hid]
            have := (List.findIdx?_eq_none_iff.mp hidx) x hx
            unfold sameIdAs at this
            exact this
        | false =>
            rw [h1 hid]
            exact decide_eq_false_iff_not.mpr (hfresh x hx)
      refine ⟨stampCreate inv freshId now, _, stampCreate inv freshId now,
        saveInvoice_create_branch inv freshId now s hv hm hidx, ?_,
        h7, h8, ?_⟩
      · show ((getData s).1.invoices ++ [stampCreate inv freshId now]).find?
            (fun o => decide (o.id = (stampCreate inv freshId now).id)) =
          some (stampCreate inv freshId now)
        exact find?_append_hit hall (by simp)
      · intro v hn
        rw [h13, hn]

/-- Witness for C9 (amended): creating `validInvoice` in an empty
document and reading it back. -/
theorem save_get_roundtrip_w :
    _validateInvoice (some validInvoice) = true ∧
    (∃ out s2 r,
      saveInvoice (some validInvoice) "uuid-w9" "t9w" createStore =
        Except.ok (true, some out, s2) ∧
      (getInvoice out.id s2).1 = some r ∧
      r.client = validInvoice.client ∧
      r.items = validInvoice.items ∧
      ∀ v, validInvoice.notes = some v → r.notes = some v) :=
  ⟨by decide,
    save_get_roundtrip validInvoice "uuid-w9" "t9w" createStore
      (by decide) rfl (by decide)⟩
